import Mathlib

/-
Verification of the aggregation core of the expense_management repository.

Modelling conventions (shallow embedding of the TypeScript source):
- JS numbers (transaction amounts, sums, percentages) are modelled as `ℚ`.
- Clock times (`new Date().getTime()`) are modelled as an integer number of
  milliseconds since the Unix epoch, passed explicitly as a `nowMs : ℤ`
  parameter; the local clock is taken to be UTC.
- An ISO `YYYY-MM-DD` date string parsed with `new Date(s)` denotes midnight
  UTC of that civil day, i.e. the timestamp `dateToDay s * 86400000` where
  `dateToDay` converts the string to a day count since 1970-01-01.
- Empty string fields stand for the missing/blank UI inputs that the source
  checks with JS truthiness (`if (startDate && endDate)`).
-/

namespace EM

/-! ## Data model (types.ts) -/

inductive TransactionType where
  | expense
  | income
deriving DecidableEq, Repr

inductive Category where
  | food
  | transport
  | utilities
  | shopping
  | entertainment
  | health
  | education
  | income
  | other
deriving DecidableEq, Repr

/-- Transaction record from types.ts: `{id, amount, type, category, date, note}`
with `date` an ISO `YYYY-MM-DD` string. -/
structure Transaction where
  id : String
  amount : ℚ
  type : TransactionType
  category : Category
  date : String
  note : String
deriving DecidableEq, Repr

inductive DateFilter where
  | week
  | month
  | year
  | all
  | custom
deriving DecidableEq, Repr

/-! ## Date strings

The source parses transaction dates with `new Date(t.date)`; for an ISO
`YYYY-MM-DD` string this is midnight UTC of that civil day.  `dateToDay`
computes the day count since 1970-01-01 (the standard civil-from-days
conversion), so `new Date(s).getTime()` is modelled by `dateToDay s * 86400000`.
-/

def splitDashAux : List Char → List Char → List (List Char)
  | [], acc => [acc.reverse]
  | c :: rest, acc =>
    if c = '-' then acc.reverse :: splitDashAux rest []
    else splitDashAux rest (c :: acc)

def charsToInt (cs : List Char) : ℤ :=
  cs.foldl (fun a c => a * 10 + ((c.toNat : ℤ) - 48)) 0

/-- Days since 1970-01-01 of the civil date y-m-d (proleptic Gregorian).
Standard days-from-civil algorithm; `/` on ℤ is Euclidean division, which
equals floor division for the positive divisors used here. -/
def daysFromCivil (y m d : ℤ) : ℤ :=
  let yy := if m ≤ 2 then y - 1 else y
  let era := yy / 400
  let yoe := yy - era * 400
  let mp := (m + 9) % 12
  let doy := (153 * mp + 2) / 5 + d - 1
  let doe := yoe * 365 + yoe / 4 - yoe / 100 + doy
  era * 146097 + doe - 719468

/-- Day number (days since the epoch) denoted by an ISO date string; the value
on non-ISO input is irrelevant to the claims (the engine does not validate
dates and the spec requires callers to supply well-formed ones). -/
def dateToDay (s : String) : ℤ :=
  match splitDashAux s.data [] with
  | [ys, ms, ds] => daysFromCivil (charsToInt ys) (charsToInt ms) (charsToInt ds)
  | _ => 0

/-- Timestamp of `new Date(t.date)` in milliseconds. -/
def dateMs (t : Transaction) : ℤ := dateToDay t.date * 86400000

/-! ## Period filtering (Analytics.tsx, processedData)

`filterWeek` models the `week` branch (lines 108-111): `oneWeekAgo` is the
current instant minus exactly 7 days, and a transaction is kept iff
`new Date(t.date) >= oneWeekAgo`.

`filterCustom` models the `custom` branch (lines 125-140): if either bound is
the empty string the `if (startDate && endDate)` guard fails and the list is
returned with no date filtering applied; otherwise dates are compared
lexically, and lexical order on ISO date strings is chronological order.
-/

def filterWeek (nowMs : ℤ) (ts : List Transaction) : List Transaction :=
  ts.filter (fun t => decide (nowMs - 7 * 86400000 ≤ dateMs t))

def filterCustom (startDate endDate : String) (ts : List Transaction) : List Transaction :=
  if startDate ≠ "" ∧ endDate ≠ "" then
    ts.filter (fun t => decide (startDate ≤ t.date) && decide (t.date ≤ endDate))
  else ts

/-- Days spanned by a custom range as the source computes it:
`(end - start) / (1000 * 3600 * 24)` on the two parsed timestamps. -/
def daysDiff (startDate endDate : String) : ℚ :=
  ((dateToDay endDate * 86400000 - dateToDay startDate * 86400000 : ℤ) : ℚ) / (1000 * 3600 * 24)

/-- Bucketing flag `isMonthlyGrouping` of processedData: true for `year`, and
for `custom` with both bounds present and `daysDiff > 60`; false otherwise. -/
def isMonthlyGrouping (f : DateFilter) (startDate endDate : String) : Bool :=
  match f with
  | DateFilter.year => true
  | DateFilter.custom =>
    if startDate ≠ "" ∧ endDate ≠ "" then decide (daysDiff startDate endDate > 60)
    else false
  | _ => false

/-- Week filter as the spec sentence describes it (for comparison with the
source's `filterWeek`): keep exactly the transactions dated within the
inclusive window from today minus 6 days through today. -/
def specWeekFilter (nowMs : ℤ) (ts : List Transaction) : List Transaction :=
  ts.filter (fun t =>
    decide (nowMs / 86400000 - 6 ≤ dateToDay t.date) &&
    decide (dateToDay t.date ≤ nowMs / 86400000))

/-- Sample transaction builder used by concrete witnesses and counterexamples. -/
def sampleTx (id : String) (amount : ℚ) (ty : TransactionType) (cat : Category)
    (date : String) : Transaction :=
  ⟨id, amount, ty, cat, date, ""⟩

/-! ## Claim C1 -/

/-- Claim C1, counterexample.  The source's week branch has no upper bound
(`new Date(t.date) >= oneWeekAgo` is its only condition), so on
2024-06-15T01:00Z a transaction dated 2099-01-01 is kept, while the claimed
window `[today - 6, today]` excludes it: the filter output differs from the
claimed output. -/
theorem c1_counterexample :
    filterWeek (19889 * 86400000 + 3600000)
        [sampleTx "f" 50 TransactionType.expense Category.food "2099-01-01"] ≠
      specWeekFilter (19889 * 86400000 + 3600000)
        [sampleTx "f" 50 TransactionType.expense Category.food "2099-01-01"] := by
  decide

/-- Claim C1, amended: whenever the current instant is strictly after midnight,
the `week` filter keeps exactly the transactions dated at least today minus 6
days — with no upper bound, so future-dated transactions are kept as well
(and at exactly midnight the lower bound becomes today minus 7). -/
theorem c1_week_filter (nowMs : ℤ) (ts : List Transaction)
    (h : 0 < nowMs % 86400000) :
    filterWeek nowMs ts =
      ts.filter (fun t => decide (nowMs / 86400000 - 6 ≤ dateToDay t.date)) := by
  unfold filterWeek
  apply List.filter_congr
  intro t _
  have hiff : (nowMs - 7 * 86400000 ≤ dateMs t) ↔
      (nowMs / 86400000 - 6 ≤ dateToDay t.date) := by
    unfold dateMs
    omega
  exact decide_eq_decide.mpr hiff

/-- Claim C1 witness: the amended theorem applied at a concrete instant
(2024-06-15T01:00Z) and a concrete two-transaction list. -/
theorem c1_week_filter_witness :
    0 < (19889 * 86400000 + 3600000 : ℤ) % 86400000 ∧
      filterWeek (19889 * 86400000 + 3600000)
          [sampleTx "a" 10 TransactionType.expense Category.food "2024-06-10",
           sampleTx "b" 20 TransactionType.expense Category.food "2024-01-01"] =
        List.filter
          (fun t => decide ((19889 * 86400000 + 3600000 : ℤ) / 86400000 - 6 ≤ dateToDay t.date))
          [sampleTx "a" 10 TransactionType.expense Category.food "2024-06-10",
           sampleTx "b" 20 TransactionType.expense Category.food "2024-01-01"] :=
  ⟨by decide,
   c1_week_filter (19889 * 86400000 + 3600000)
     [sampleTx "a" 10 TransactionType.expense Category.food "2024-06-10",
      sampleTx "b" 20 TransactionType.expense Category.food "2024-01-01"]
     (by decide)⟩

/-! ## Claim C2 -/

/-- Claim C2, counterexample.  With the start date missing, the source's guard
`if (startDate && endDate)` fails and the `custom` branch applies no date
filtering at all, so the result is the unfiltered input list — not the empty
list the claim asserts. -/
theorem c2_counterexample :
    ¬ filterCustom "" "2024-12-31"
        [sampleTx "a" 10 TransactionType.expense Category.food "2024-06-10"] = [] := by
  decide

/-- Claim C2, amended: filtering with period `custom` when either bound is
missing returns the input list unchanged (the date filter is skipped), and
does not raise an error. -/
theorem c2_custom_missing (startDate endDate : String) (ts : List Transaction)
    (h : startDate = "" ∨ endDate = "") :
    filterCustom startDate endDate ts = ts := by
  unfold filterCustom
  rw [if_neg]
  tauto

/-- Claim C2 witness: the amended theorem at a concrete missing start date. -/
theorem c2_custom_missing_witness :
    (("" : String) = "" ∨ ("2024-12-31" : String) = "") ∧
      filterCustom "" "2024-12-31"
          [sampleTx "a" 10 TransactionType.expense Category.food "2024-06-10"] =
        [sampleTx "a" 10 TransactionType.expense Category.food "2024-06-10"] :=
  ⟨Or.inl rfl,
   c2_custom_missing "" "2024-12-31"
     [sampleTx "a" 10 TransactionType.expense Category.food "2024-06-10"]
     (Or.inl rfl)⟩

/-! ## Claim C5 -/

/-- Claim C5: for a custom range with both bounds present, monthly bucketing is
selected exactly when the range spans more than 60 days (difference between the
end day and the start day), so a span of exactly 60 days uses daily bucketing. -/
theorem c5_bucketing (startDate endDate : String)
    (hs : startDate ≠ "") (he : endDate ≠ "") :
    isMonthlyGrouping DateFilter.custom startDate endDate = true ↔
      60 < dateToDay endDate - dateToDay startDate := by
  unfold isMonthlyGrouping
  rw [if_pos ⟨hs, he⟩]
  rw [decide_eq_true_iff]
  unfold daysDiff
  have h86 : ((1000 * 3600 * 24 : ℚ)) = ((86400000 : ℤ) : ℚ) := by norm_num
  constructor
  · intro h
    rw [h86, gt_iff_lt, lt_div_iff₀ (by positivity)] at h
    have : (60 * 86400000 : ℤ) <
        dateToDay endDate * 86400000 - dateToDay startDate * 86400000 := by
      exact_mod_cast h
    omega
  · intro h
    rw [h86, gt_iff_lt, lt_div_iff₀ (by positivity)]
    have : (60 * 86400000 : ℤ) <
        dateToDay endDate * 86400000 - dateToDay startDate * 86400000 := by
      omega
    exact_mod_cast this

/-- Claim C5 witness: the theorem applied at the boundary range 2024-01-01 to
2024-03-01 (exactly 60 days apart). -/
theorem c5_bucketing_witness :
    ("2024-01-01" : String) ≠ "" ∧ ("2024-03-01" : String) ≠ "" ∧
      (isMonthlyGrouping DateFilter.custom "2024-01-01" "2024-03-01" = true ↔
        60 < dateToDay "2024-03-01" - dateToDay "2024-01-01") :=
  ⟨by decide, by decide,
   c5_bucketing "2024-01-01" "2024-03-01" (by decide) (by decide)⟩

/-- The boundary range 2024-01-01 to 2024-03-01 spans exactly 60 days and is
bucketed daily, checked concretely. -/
lemma boundary_sixty_days_daily :
    dateToDay "2024-03-01" - dateToDay "2024-01-01" = 60 ∧
      isMonthlyGrouping DateFilter.custom "2024-01-01" "2024-03-01" = false := by
  have h1 : dateToDay "2024-03-01" = 19783 := by decide
  have h2 : dateToDay "2024-01-01" = 19723 := by decide
  refine ⟨by rw [h1, h2]; norm_num, ?_⟩
  simp only [isMonthlyGrouping, daysDiff, h1, h2]
  norm_num

/-! ## Comparison deltas (Analytics.tsx, createCompData, lines 366-390) -/

/-- Percent change as computed by createCompData: starts at 0, overwritten by
the ratio formula when `previous > 0`, by 100 when `previous ≤ 0 < current`. -/
def percentChange (current previous : ℚ) : ℚ :=
  if previous > 0 then (current - previous) / previous * 100
  else if current > 0 then 100
  else 0

/-- Claim C3: for non-negative current and previous sums, the comparison
computes `(current - previous) / previous * 100` when `previous > 0`, `100`
when `previous = 0 < current`, and `0` when both are zero. -/
theorem c3_percent_change (current previous : ℚ)
    (hc : 0 ≤ current) (hp : 0 ≤ previous) :
    (0 < previous → percentChange current previous = (current - previous) / previous * 100) ∧
      (previous = 0 → 0 < current → percentChange current previous = 100) ∧
      (previous = 0 → current = 0 → percentChange current previous = 0) := by
  refine ⟨fun h => ?_, fun h hccur => ?_, fun h hc0 => ?_⟩
  · rw [percentChange, if_pos h]
  · rw [percentChange, if_neg (by rw [h]; exact lt_irrefl 0), if_pos hccur]
  · rw [percentChange, if_neg (by rw [h]; exact lt_irrefl 0), if_neg (by rw [hc0]; exact lt_irrefl 0)]

/-- Claim C3 witness: the theorem applied at the spec's own example
`previous = 200, current = 100`, whose percent change evaluates to -50. -/
theorem c3_percent_change_witness :
    (0 ≤ (100 : ℚ)) ∧ (0 ≤ (200 : ℚ)) ∧
      ((0 < (200 : ℚ) → percentChange 100 200 = (100 - 200) / 200 * 100) ∧
        ((200 : ℚ) = 0 → 0 < (100 : ℚ) → percentChange 100 200 = 100) ∧
        ((200 : ℚ) = 0 → (100 : ℚ) = 0 → percentChange 100 200 = 0)) ∧
      percentChange 100 200 = -50 :=
  ⟨by norm_num, by norm_num, c3_percent_change 100 200 (by norm_num) (by norm_num),
   by rw [percentChange, if_pos (by norm_num)]; norm_num⟩

/-! ## Derived totals (Dashboard.tsx lines 29-38, TransactionList.tsx lines 32-40) -/

/-- Income sum as Dashboard computes it: filter by type, then reduce. -/
def totalIncome (ts : List Transaction) : ℚ :=
  (ts.filter (fun t => decide (t.type = TransactionType.income))).foldl
    (fun sum t => sum + t.amount) 0

/-- Expense sum as Dashboard computes it: filter by type, then reduce. -/
def totalExpense (ts : List Transaction) : ℚ :=
  (ts.filter (fun t => decide (t.type = TransactionType.expense))).foldl
    (fun sum t => sum + t.amount) 0

/-- Balance as both views compute it. -/
def balance (ts : List Transaction) : ℚ := totalIncome ts - totalExpense ts

/-- Income/expense totals as TransactionList computes them in a single reduce
over an accumulator pair (income component first). -/
def totalsTL (ts : List Transaction) : ℚ × ℚ :=
  ts.foldl
    (fun acc t =>
      if t.type = TransactionType.income then (acc.1 + t.amount, acc.2)
      else (acc.1, acc.2 + t.amount))
    (0, 0)

/-- Mathematical income sum: Σ amount over transactions of type income. -/
def incomeSum (ts : List Transaction) : ℚ :=
  ((ts.filter (fun t => decide (t.type = TransactionType.income))).map
    (fun t => t.amount)).sum

/-- Mathematical expense sum: Σ amount over transactions of type expense. -/
def expenseSum (ts : List Transaction) : ℚ :=
  ((ts.filter (fun t => decide (t.type = TransactionType.expense))).map
    (fun t => t.amount)).sum

lemma foldl_add_amount (ts : List Transaction) (s0 : ℚ) :
    ts.foldl (fun sum t => sum + t.amount) s0 = s0 + (ts.map (fun t => t.amount)).sum := by
  induction ts generalizing s0 with
  | nil => simp
  | cons t rest ih => simp [List.foldl_cons, ih]; ring

lemma totalIncome_eq (ts : List Transaction) : totalIncome ts = incomeSum ts := by
  rw [totalIncome, incomeSum, foldl_add_amount, zero_add]

lemma totalExpense_eq (ts : List Transaction) : totalExpense ts = expenseSum ts := by
  rw [totalExpense, expenseSum, foldl_add_amount, zero_add]

lemma totalsTL_aux (ts : List Transaction) (a b : ℚ) :
    ts.foldl
        (fun acc t =>
          if t.type = TransactionType.income then (acc.1 + t.amount, acc.2)
          else (acc.1, acc.2 + t.amount))
        (a, b) = (a + incomeSum ts, b + expenseSum ts) := by
  induction ts generalizing a b with
  | nil => simp [incomeSum, expenseSum]
  | cons t rest ih =>
    cases ht : t.type <;>
      simp [List.foldl_cons, ht, ih, incomeSum, expenseSum, List.filter_cons] <;>
      ring

/-- Claim C4: for every transaction subset, the derived-totals computations of
both views return `totalIncome = Σ amount over income transactions`,
`totalExpense = Σ amount over expense transactions`, and
`balance = totalIncome - totalExpense`. -/
theorem c4_derived_totals (ts : List Transaction) :
    totalIncome ts = incomeSum ts ∧ totalExpense ts = expenseSum ts ∧
      balance ts = totalIncome ts - totalExpense ts ∧
      totalsTL ts = (incomeSum ts, expenseSum ts) := by
  refine ⟨totalIncome_eq ts, totalExpense_eq ts, rfl, ?_⟩
  rw [totalsTL, totalsTL_aux, zero_add, zero_add]

/-! ## Category grouping (Analytics.tsx, processedData lines 142-154, 197) -/

/-- One step of the JS reduce `acc[t.category] = (acc[t.category] || 0) + t.amount`
on an object modelled as an insertion-ordered association list: an existing key
is updated in place, a new key is appended at the end. -/
def updateCategoryAcc : List (Category × ℚ) → Category → ℚ → List (Category × ℚ)
  | [], c, a => [(c, a)]
  | (c2, v) :: rest, c, a =>
    if c2 = c then (c2, v + a) :: rest
    else (c2, v) :: updateCategoryAcc rest c a

/-- Per-category totals accumulated by the reduce, in insertion order
(the `Object.entries` iteration order for these string keys). -/
def groupPairs (ts : List Transaction) : List (Category × ℚ) :=
  ts.foldl (fun acc t => updateCategoryAcc acc t.category t.amount) []

/-- categoryData: the grouped totals sorted descending by total
(`.sort((a, b) => b.value - a.value)`). -/
def categoryData (ts : List Transaction) : List (Category × ℚ) :=
  (groupPairs ts).mergeSort (fun a b => decide (b.2 ≤ a.2))

/-- Direct reduce-sum over the same subset:
`filtered.reduce((sum, t) => sum + t.amount, 0)`. -/
def reduceSum (ts : List Transaction) : ℚ :=
  ts.foldl (fun sum t => sum + t.amount) 0

lemma sum_updateCategoryAcc (acc : List (Category × ℚ)) (c : Category) (a : ℚ) :
    ((updateCategoryAcc acc c a).map Prod.snd).sum = (acc.map Prod.snd).sum + a := by
  induction acc with
  | nil => simp [updateCategoryAcc]
  | cons hd tl ih =>
    obtain ⟨c2, v⟩ := hd
    by_cases h : c2 = c
    · simp [updateCategoryAcc, h]
      ring
    · simp [updateCategoryAcc, h, ih]
      ring

lemma sum_groupPairs_aux (ts : List Transaction) (acc : List (Category × ℚ)) :
    ((ts.foldl (fun acc t => updateCategoryAcc acc t.category t.amount) acc).map
        Prod.snd).sum =
      (acc.map Prod.snd).sum + (ts.map (fun t => t.amount)).sum := by
  induction ts generalizing acc with
  | nil => simp
  | cons t rest ih =>
    simp [List.foldl_cons, ih, sum_updateCategoryAcc]
    ring

/-- Claim C6: the per-category totals produced by the category grouping sum to
the same value as the direct reduce-sum of amount over the same subset. -/
theorem c6_category_totals (ts : List Transaction) :
    ((categoryData ts).map Prod.snd).sum = reduceSum ts := by
  have hperm := List.mergeSort_perm (groupPairs ts) (fun a b => decide (b.2 ≤ a.2))
  have hsort : ((categoryData ts).map Prod.snd).sum = ((groupPairs ts).map Prod.snd).sum :=
    (hperm.map Prod.snd).sum_eq
  rw [hsort, groupPairs, sum_groupPairs_aux, reduceSum, foldl_add_amount]
  simp

/-! ## Transaction edit (App, src/unnamed/part_002 lines 112-118) -/

/-- handleEditTransaction: `prev.map(t => t.id === u.id ? u : t)`. -/
def handleEditTransaction (u : Transaction) (prev : List Transaction) : List Transaction :=
  prev.map (fun t => if t.id = u.id then u else t)

/-- Claim C9: the edit operation preserves length and order, and pointwise
leaves transactions with a different id unchanged while replacing every
transaction whose id equals the updated transaction's id. -/
theorem c9_edit (u : Transaction) (ts : List Transaction) :
    (handleEditTransaction u ts).length = ts.length ∧
      ∀ i : ℕ, (handleEditTransaction u ts)[i]? =
        (ts[i]?).map (fun t => if t.id = u.id then u else t) := by
  refine ⟨by simp [handleEditTransaction], fun i => ?_⟩
  simp [handleEditTransaction, List.getElem?_map]

/-! ## JSON export/import (Analytics.tsx lines 253-318, App handleImportData)

The JSON text layer is modelled by a JSON value tree: `JSON.stringify` of the
transaction list produces exactly the text whose parse is
`exportJSON transactions`, and `JSON.parse` of an arbitrary import file is an
arbitrary `JsValue` (a file that fails to parse is caught and also leaves the
list unchanged, which the claims do not exercise).
-/

inductive JsValue where
  | jnull
  | jbool (b : Bool)
  | jnum (q : ℚ)
  | jstr (s : String)
  | jarr (elems : List JsValue)
  | jobj (fields : List (String × JsValue))

/-- JS truthiness of a value (`!v` in the source's validation is its negation). -/
def truthy : JsValue → Bool
  | JsValue.jnull => false
  | JsValue.jbool b => b
  | JsValue.jnum q => decide (q ≠ 0)
  | JsValue.jstr s => decide (s ≠ "")
  | JsValue.jarr _ => true
  | JsValue.jobj _ => true

def lookupField : List (String × JsValue) → String → Option JsValue
  | [], _ => none
  | (k2, v) :: rest, k => if k2 = k then some v else lookupField rest k

/-- Truthiness of the JS property access `v[k]`: a missing property (or a
property access on a non-object) is undefined, which is falsy. -/
def fieldTruthy (v : JsValue) (k : String) : Bool :=
  match v with
  | JsValue.jobj fields =>
    match lookupField fields k with
    | some w => truthy w
    | none => false
  | _ => false

def isArr : JsValue → Bool
  | JsValue.jarr _ => true
  | _ => false

def typeToStr : TransactionType → String
  | TransactionType.expense => "expense"
  | TransactionType.income => "income"

def categoryToStr : Category → String
  | Category.food => "food"
  | Category.transport => "transport"
  | Category.utilities => "utilities"
  | Category.shopping => "shopping"
  | Category.entertainment => "entertainment"
  | Category.health => "health"
  | Category.education => "education"
  | Category.income => "income"
  | Category.other => "other"

/-- JSON object a Transaction record serializes to. -/
def encodeTransaction (t : Transaction) : JsValue :=
  JsValue.jobj
    [("id", JsValue.jstr t.id),
     ("amount", JsValue.jnum t.amount),
     ("type", JsValue.jstr (typeToStr t.type)),
     ("category", JsValue.jstr (categoryToStr t.category)),
     ("date", JsValue.jstr t.date),
     ("note", JsValue.jstr t.note)]

/-- handleExportJSON: `JSON.stringify(transactions)` — the transaction list
serialized verbatim as a JSON array of records. -/
def exportJSON (ts : List Transaction) : JsValue :=
  JsValue.jarr (ts.map encodeTransaction)

/-- Validation in handleFileChange: the parsed value must be an array, and a
non-empty array's first element must have truthy `amount` and `date`
properties; `none` is the rejection path that alerts a format error. -/
def validateImport (parsed : JsValue) : Option (List JsValue) :=
  match parsed with
  | JsValue.jarr xs =>
    match xs with
    | [] => some []
    | x :: _ =>
      if !fieldTruthy x "amount" || !fieldTruthy x "date" then none
      else some xs
  | _ => none

def asString : JsValue → Option String
  | JsValue.jstr s => some s
  | _ => none

def asNumber : JsValue → Option ℚ
  | JsValue.jnum q => some q
  | _ => none

def strToType (s : String) : Option TransactionType :=
  if s = "expense" then some TransactionType.expense
  else if s = "income" then some TransactionType.income
  else none

def strToCategory (s : String) : Option Category :=
  if s = "food" then some Category.food
  else if s = "transport" then some Category.transport
  else if s = "utilities" then some Category.utilities
  else if s = "shopping" then some Category.shopping
  else if s = "entertainment" then some Category.entertainment
  else if s = "health" then some Category.health
  else if s = "education" then some Category.education
  else if s = "income" then some Category.income
  else if s = "other" then some Category.other
  else none

/-- Reading a parsed JSON record back as a Transaction.  The source performs
this step as an unchecked TypeScript cast; the decoder is its meaning on
well-formed records (and in particular inverts `encodeTransaction`). -/
def decodeTransaction (v : JsValue) : Option Transaction :=
  match v with
  | JsValue.jobj fields => do
    let idv ← lookupField fields "id"
    let id ← asString idv
    let av ← lookupField fields "amount"
    let amount ← asNumber av
    let tyv ← lookupField fields "type"
    let tys ← asString tyv
    let ty ← strToType tys
    let cv ← lookupField fields "category"
    let cs ← asString cv
    let cat ← strToCategory cs
    let dv ← lookupField fields "date"
    let date ← asString dv
    let nv ← lookupField fields "note"
    let note ← asString nv
    pure ⟨id, amount, ty, cat, date, note⟩
  | _ => none

def decodeList : List JsValue → Option (List Transaction)
  | [] => some []
  | v :: rest =>
    match decodeTransaction v, decodeList rest with
    | some t, some ts => some (t :: ts)
    | _, _ => none

/-- End-to-end import: handleFileChange validates the parsed value, asks for
confirmation, and App.handleImportData replaces the whole list.  Every
rejection path keeps the existing list.  (The decode-failure fallback is
unreachable for values produced by `exportJSON`; the source casts without
decoding.) -/
def importApply (existing : List Transaction) (parsed : JsValue) (confirmed : Bool) :
    List Transaction :=
  match validateImport parsed with
  | none => existing
  | some xs =>
    if confirmed then
      match decodeList xs with
      | some ts => ts
      | none => existing
    else existing

/-! ## Claim C7 -/

/-- Claim C7: a parsed JSON value that is not an array is rejected by the
format validation and the existing transaction list is left unchanged,
whether or not the (never-reached) confirmation would be given. -/
theorem c7_non_array_rejected (existing : List Transaction) (parsed : JsValue)
    (confirmed : Bool) (h : isArr parsed = false) :
    validateImport parsed = none ∧ importApply existing parsed confirmed = existing := by
  cases parsed with
  | jarr xs => simp [isArr] at h
  | jnull => exact ⟨rfl, rfl⟩
  | jbool b => exact ⟨rfl, rfl⟩
  | jnum q => exact ⟨rfl, rfl⟩
  | jstr s => exact ⟨rfl, rfl⟩
  | jobj fields => exact ⟨rfl, rfl⟩

/-- Claim C7 witness: the theorem applied to a concrete JSON object (the
non-array example from the spec) against a concrete one-element list. -/
theorem c7_non_array_rejected_witness :
    isArr (JsValue.jobj [("amount", JsValue.jnum 5)]) = false ∧
      (validateImport (JsValue.jobj [("amount", JsValue.jnum 5)]) = none ∧
        importApply [sampleTx "a" 10 TransactionType.expense Category.food "2024-06-10"]
            (JsValue.jobj [("amount", JsValue.jnum 5)]) true =
          [sampleTx "a" 10 TransactionType.expense Category.food "2024-06-10"]) :=
  ⟨rfl,
   c7_non_array_rejected
     [sampleTx "a" 10 TransactionType.expense Category.food "2024-06-10"]
     (JsValue.jobj [("amount", JsValue.jnum 5)]) true rfl⟩

/-! ## Claim C8 -/

lemma decode_encode (t : Transaction) : decodeTransaction (encodeTransaction t) = some t := by
  obtain ⟨id, amount, ty, cat, date, note⟩ := t
  cases ty <;> cases cat <;> rfl

lemma decodeList_encode (l : List Transaction) :
    decodeList (l.map encodeTransaction) = some l := by
  induction l with
  | nil => rfl
  | cons t rest ih => simp [List.map_cons, decodeList, decode_encode, ih]

lemma fieldTruthy_encode_amount (t : Transaction) :
    fieldTruthy (encodeTransaction t) "amount" = decide (t.amount ≠ 0) := rfl

lemma fieldTruthy_encode_date (t : Transaction) :
    fieldTruthy (encodeTransaction t) "date" = decide (t.date ≠ "") := rfl

/-- Claim C8, counterexample.  The import's first-element heuristic tests JS
truthiness of `amount`, so a list whose first transaction has amount 0 (a
legal non-negative amount) is rejected on re-import of its own export and the
previous list (here empty) is kept: the round trip is not the identity. -/
theorem c8_counterexample :
    importApply [] (exportJSON [sampleTx "z" 0 TransactionType.expense Category.food "2024-01-01"]) true ≠
      [sampleTx "z" 0 TransactionType.expense Category.food "2024-01-01"] := by
  decide

/-- Claim C8, amended: exporting and then importing the exact exported data
(confirmed) reproduces an identical transaction list for every list that is
empty or whose first transaction has a nonzero amount and a nonempty date
string; a first record with amount 0 or an empty date is instead rejected by
the import's first-element format heuristic. -/
theorem c8_roundtrip (existing ts : List Transaction)
    (h : ∀ t, ts.head? = some t → t.amount ≠ 0 ∧ t.date ≠ "") :
    importApply existing (exportJSON ts) true = ts := by
  cases ts with
  | nil => rfl
  | cons t rest =>
    obtain ⟨ha, hd⟩ := h t rfl
    have hv : validateImport (exportJSON (t :: rest)) =
        some ((t :: rest).map encodeTransaction) := by
      rw [exportJSON, List.map_cons, validateImport]
      simp [fieldTruthy_encode_amount, fieldTruthy_encode_date, ha, hd]
    rw [importApply]
    rw [exportJSON] at hv ⊢
    rw [hv]
    have hdl := decodeList_encode (t :: rest)
    rw [List.map_cons] at hdl
    simp [hdl]

/-- Claim C8 witness: the amended theorem applied to a concrete singleton list
with nonzero amount, imported over a concrete different existing list. -/
theorem c8_roundtrip_witness :
    (∀ t, ([sampleTx "a" 5 TransactionType.expense Category.food "2024-01-01"].head? = some t →
        t.amount ≠ 0 ∧ t.date ≠ "")) ∧
      importApply [sampleTx "old" 7 TransactionType.income Category.income "2023-05-05"]
          (exportJSON [sampleTx "a" 5 TransactionType.expense Category.food "2024-01-01"]) true =
        [sampleTx "a" 5 TransactionType.expense Category.food "2024-01-01"] :=
  ⟨fun t h => by
      rw [List.head?_cons, Option.some.injEq] at h
      subst h
      exact ⟨by norm_num [sampleTx], by decide⟩,
   c8_roundtrip [sampleTx "old" 7 TransactionType.income Category.income "2023-05-05"]
     [sampleTx "a" 5 TransactionType.expense Category.food "2024-01-01"]
     (fun t h => by
       rw [List.head?_cons, Option.some.injEq] at h
       subst h
       exact ⟨by norm_num [sampleTx], by decide⟩)⟩

/-! ## Amount input formatting (constants.ts formatInputNumber, TransactionForm handleSubmit)

`formatInputNumber` first strips every non-digit (`replace(/\D/g, "")`) and
then inserts commas with `replace(/\B(?=(\d{3})+(?!\d))/g, ",")`.  On a pure
digit string, that regex inserts a comma exactly at each interior position
followed by a multiple-of-three run of digits, i.e. standard thousands
grouping from the right — realised here by reversing, chunking into threes,
interspersing commas, and reversing back.  The form's submit handler strips
the commas back out with `replace(/,/g, "")`, modelled by `removeCommas`.
-/

def group3 : List Char → List (List Char)
  | [] => []
  | a :: b :: c :: rest => [a, b, c] :: group3 rest
  | xs => [xs]

def insertCommas (ds : List Char) : List Char :=
  (((group3 ds.reverse).intersperse [',']).flatten).reverse

def formatInputNumber (s : String) : String :=
  if s = "" then ""
  else String.mk (insertCommas (s.data.filter Char.isDigit))

/-- The comma stripping performed by handleSubmit before `parseInt`. -/
def removeCommas (s : String) : String :=
  String.mk (s.data.filter (fun c => decide (c ≠ ',')))

/-- Digit characters of a string, in order. -/
def stripNonDigits (s : String) : String :=
  String.mk (s.data.filter Char.isDigit)

lemma group3_flatten (xs : List Char) : (group3 xs).flatten = xs := by
  induction xs using group3.induct <;> simp [group3, *]

lemma filter_flatten_intersperse (p : Char → Bool) (sep : Char) (hsep : p sep = false)
    (chunks : List (List Char)) (h : ∀ l ∈ chunks, ∀ c ∈ l, p c = true) :
    ((chunks.intersperse [sep]).flatten).filter p = chunks.flatten := by
  induction chunks with
  | nil => simp
  | cons l rest ih =>
    cases rest with
    | nil =>
      simp only [List.intersperse_singleton, List.flatten_cons, List.flatten_nil,
        List.append_nil]
      exact List.filter_eq_self.mpr (h l (by simp))
    | cons l2 rest2 =>
      rw [List.intersperse_cons_cons, List.flatten_cons, List.flatten_cons]
      rw [List.filter_append, List.filter_append]
      rw [List.filter_eq_self.mpr (h l (by simp))]
      have hsep2 : List.filter p [sep] = [] := by simp [List.filter, hsep]
      rw [hsep2]
      have ih2 := ih (fun m hm c hc => h m (List.mem_cons_of_mem l hm) c hc)
      rw [List.flatten_cons] at ih2
      simp only [List.append_nil, List.nil_append]
      rw [ih2]
      simp

lemma filter_insertCommas (p : Char → Bool) (ds : List Char) (hsep : p ',' = false)
    (hds : ∀ c ∈ ds, p c = true) : (insertCommas ds).filter p = ds := by
  unfold insertCommas
  rw [List.filter_reverse]
  rw [filter_flatten_intersperse p ',' hsep (group3 ds.reverse)
      (fun l hl c hc => hds c (by
        have hmem : c ∈ (group3 ds.reverse).flatten := List.mem_flatten.mpr ⟨l, hl, hc⟩
        rw [group3_flatten] at hmem
        exact List.mem_reverse.mp hmem))]
  rw [group3_flatten, List.reverse_reverse]

/-- Claim C10: the amount-input formatter preserves the input's digit
characters in order, and stripping the commas from the formatted output (as the
submit handler does before parsing) recovers exactly those digits. -/
theorem c10_format_digits (s : String) :
    stripNonDigits (formatInputNumber s) = stripNonDigits s ∧
      removeCommas (formatInputNumber s) = stripNonDigits s := by
  by_cases hs : s = ""
  · subst hs
    exact ⟨rfl, rfl⟩
  · unfold formatInputNumber
    rw [if_neg hs]
    unfold stripNonDigits removeCommas
    have hdig : ∀ c ∈ s.data.filter Char.isDigit, Char.isDigit c = true :=
      fun c hc => (List.mem_filter.mp hc).2
    constructor
    · rw [show (String.mk (insertCommas (s.data.filter Char.isDigit))).data =
          insertCommas (s.data.filter Char.isDigit) from rfl]
      rw [filter_insertCommas Char.isDigit (s.data.filter Char.isDigit) rfl hdig]
    · rw [show (String.mk (insertCommas (s.data.filter Char.isDigit))).data =
          insertCommas (s.data.filter Char.isDigit) from rfl]
      rw [filter_insertCommas (fun c => decide (c ≠ ',')) (s.data.filter Char.isDigit)
          (by decide)
          (fun c hc => by
            have hd := hdig c hc
            rcases Decidable.eq_or_ne c ',' with hceq | hcne
            · rw [hceq] at hd
              exact absurd hd (by decide)
            · simp [hcne])]

end EM
